import Mathlib

/-!
Shallow embedding of the rate-aware request gateway
(`packages/edge-worker/src`: `RateLimitTracker.ts`, `IssueCache.ts`,
`RequestQueue.ts`, `LinearClientWrapper.ts`).

JavaScript numbers that can become `NaN` (via `parseInt` on malformed
header values) are modelled by `JsNum`; every comparison involving `NaN`
is `false`, as in JavaScript. Timestamps are `Int` milliseconds.
-/

/-- A JavaScript number as produced by `parseInt` and integer arithmetic:
either `NaN` or an integer. -/
inductive JsNum where
  | nan : JsNum
  | int : Int → JsNum
deriving DecidableEq, Repr

/-- JavaScript `x > b` for a possibly-NaN `x`: `false` when `x` is `NaN`. -/
def JsNum.gtInt : JsNum → Int → Bool
  | .nan, _ => false
  | .int a, b => a > b

/-- JavaScript `x <= b` for a possibly-NaN `x`: `false` when `x` is `NaN`. -/
def JsNum.leInt : JsNum → Int → Bool
  | .nan, _ => false
  | .int a, b => a ≤ b

/-- JavaScript subtraction `x - b`: `NaN` propagates. -/
def JsNum.subInt : JsNum → Int → JsNum
  | .nan, _ => .nan
  | .int a, b => .int (a - b)

/-- JavaScript multiplication `x * b`: `NaN` propagates. -/
def JsNum.mulInt : JsNum → Int → JsNum
  | .nan, _ => .nan
  | .int a, b => .int (a * b)

/-- JavaScript `Math.max(0, x)`: `NaN` when `x` is `NaN`. -/
def JsNum.max0 : JsNum → JsNum
  | .nan => .nan
  | .int a => .int (max 0 a)

/-- Whitespace skipped by JavaScript `parseInt`. -/
def isJsSpace (c : Char) : Bool :=
  c = ' ' || c = '\t' || c = '\n' || c = '\r'

/-- Maximal run of leading decimal digits. -/
def digitsPrefix : List Char → List Char
  | [] => []
  | c :: cs => if c.isDigit then c :: digitsPrefix cs else []

/-- Value of a digit string (most significant first). -/
def digitsToNat (ds : List Char) : Nat :=
  ds.foldl (fun acc c => acc * 10 + (c.toNat - '0'.toNat)) 0

/-- JavaScript `parseInt(s, 10)`: skip whitespace, optional sign, maximal
digit run; `NaN` when no digits are found. -/
def parseIntJs (s : String) : JsNum :=
  let cs := s.data.dropWhile isJsSpace
  match cs with
  | '-' :: rest =>
      let ds := digitsPrefix rest
      if ds.isEmpty then .nan else .int (-(digitsToNat ds : Int))
  | '+' :: rest =>
      let ds := digitsPrefix rest
      if ds.isEmpty then .nan else .int (digitsToNat ds)
  | rest =>
      let ds := digitsPrefix rest
      if ds.isEmpty then .nan else .int (digitsToNat ds)

/-- A header value of type `string | string[]`. -/
inductive HeaderValue where
  | str : String → HeaderValue
  | arr : List String → HeaderValue
deriving DecidableEq, Repr

/-- A `Record<string, string | string[]>` of response headers. -/
def Headers : Type := List (String × HeaderValue)

/-- `getHeaderValue` from `RateLimitTracker.updateFromHeaders`: take the
first element when the value is an array, the value itself otherwise,
`undefined` when the key is absent. -/
def getHeaderValue (headers : Headers) (key : String) : Option String :=
  match List.lookup key headers with
  | none => none
  | some (.str s) => some s
  | some (.arr l) => l.head?

/-- Request priority (`RequestQueue.ts`). -/
inductive RequestPriority where
  | critical
  | normal
  | low
deriving DecidableEq, Repr

/-- Operating mode returned by `RateLimitTracker.getOperationMode`. -/
inductive OperationMode where
  | normal
  | conservative
  | emergency
deriving DecidableEq, Repr

/-- State of `RateLimitTracker`. -/
structure RateLimitTracker where
  requestsRemaining : JsNum
  requestsLimit : JsNum
  resetTimestamp : JsNum
  complexityRemaining : JsNum
  complexityLimit : JsNum
  requestHistory : List Int
deriving DecidableEq, Repr

def HISTORY_WINDOW_MS : Int := 60000

def EMERGENCY_THRESHOLD : Int := 100

def CONSERVATIVE_THRESHOLD : Int := 300

/-- Constructor defaults of `RateLimitTracker` (`now` is `Date.now()`). -/
def RateLimitTracker.initial (now : Int) : RateLimitTracker :=
  { requestsRemaining := .int 1200
    requestsLimit := .int 1200
    resetTimestamp := .int (now + 3600000)
    complexityRemaining := .int 50000
    complexityLimit := .int 50000
    requestHistory := [] }

/-- `trackRequest`: push the current timestamp and drop entries older than
the sliding window. -/
def RateLimitTracker.trackRequest (t : RateLimitTracker) (now : Int) :
    RateLimitTracker :=
  { t with requestHistory :=
      (t.requestHistory ++ [now]).filter (fun ts => ts > now - HISTORY_WINDOW_MS) }

/-- `updateFromHeaders`: each of the five fields is assigned
`parseInt(value, 10)` when its header is present (reset is scaled to
milliseconds) and left untouched when absent; then a request timestamp is
tracked. -/
def RateLimitTracker.updateFromHeaders (t : RateLimitTracker) (now : Int)
    (headers : Headers) : RateLimitTracker :=
  let t1 :=
    match getHeaderValue headers "x-ratelimit-requests-remaining" with
    | some v => { t with requestsRemaining := parseIntJs v }
    | none => t
  let t2 :=
    match getHeaderValue headers "x-ratelimit-requests-limit" with
    | some v => { t1 with requestsLimit := parseIntJs v }
    | none => t1
  let t3 :=
    match getHeaderValue headers "x-ratelimit-requests-reset" with
    | some v => { t2 with resetTimestamp := (parseIntJs v).mulInt 1000 }
    | none => t2
  let t4 :=
    match getHeaderValue headers "x-ratelimit-complexity-remaining" with
    | some v => { t3 with complexityRemaining := parseIntJs v }
    | none => t3
  let t5 :=
    match getHeaderValue headers "x-ratelimit-complexity-limit" with
    | some v => { t4 with complexityLimit := parseIntJs v }
    | none => t4
  t5.trackRequest now

/-- `consumeRequest`: clamp-decrement `requestsRemaining` and track a
request timestamp. -/
def RateLimitTracker.consumeRequest (t : RateLimitTracker) (now : Int) :
    RateLimitTracker :=
  ({ t with requestsRemaining := (t.requestsRemaining.subInt 1).max0 }).trackRequest now

/-- `shouldAllowRequest(priority)`. -/
def RateLimitTracker.shouldAllowRequest (t : RateLimitTracker)
    (priority : RequestPriority) : Bool :=
  if t.requestsRemaining.gtInt CONSERVATIVE_THRESHOLD then
    true
  else if t.requestsRemaining.leInt EMERGENCY_THRESHOLD then
    decide (priority = .critical)
  else if t.requestsRemaining.leInt CONSERVATIVE_THRESHOLD then
    decide (priority ≠ .low)
  else
    true

/-- `getRecommendedBatchWindow()`. -/
def RateLimitTracker.getRecommendedBatchWindow (t : RateLimitTracker) : Int :=
  if t.requestsRemaining.gtInt CONSERVATIVE_THRESHOLD then 500
  else if t.requestsRemaining.gtInt EMERGENCY_THRESHOLD then 2000
  else 5000

/-- `getOperationMode()`. -/
def RateLimitTracker.getOperationMode (t : RateLimitTracker) : OperationMode :=
  if t.requestsRemaining.gtInt CONSERVATIVE_THRESHOLD then .normal
  else if t.requestsRemaining.gtInt EMERGENCY_THRESHOLD then .conservative
  else .emergency

/-- The spec's quota invariant `0 <= remaining <= limit`, read on the
`JsNum` fields (it fails outright when either field is `NaN`). -/
def quotaInvariant (t : RateLimitTracker) : Bool :=
  match t.requestsRemaining, t.requestsLimit with
  | .int r, .int l => decide (0 ≤ r) && decide (r ≤ l)
  | _, _ => false

/-!
`IssueCache.ts`. The JavaScript `Map` is modelled as an association list
in insertion order; mutating a cached record in place keeps its position,
`Map.set` on an existing key keeps its position, and `Map.set` on a new
key appends.
-/

def DEFAULT_TTL : Int := 600000

def EXTENDED_TTL : Int := 1800000

def STALE_TTL : Int := 3600000

def MAX_CACHE_SIZE : Nat := 100

/-- One `CachedIssue` record. -/
structure CachedIssue (α : Type) where
  issue : α
  timestamp : Int
  ttl : Int
  accessCount : Nat
  lastAccessed : Int
deriving DecidableEq, Repr

/-- `IssueCache` state: the `Map<string, CachedIssue>`. -/
structure IssueCache (α : Type) where
  cache : List (String × CachedIssue α)
deriving DecidableEq, Repr

def IssueCache.empty (α : Type) : IssueCache α := ⟨[]⟩

/-- `Map.get`. -/
def IssueCache.lookup (c : IssueCache α) (issueId : String) :
    Option (CachedIssue α) :=
  List.lookup issueId c.cache

/-- `Map.set` on a possibly-existing key: replace in place, else append. -/
def mapSet (m : List (String × CachedIssue α)) (key : String)
    (v : CachedIssue α) : List (String × CachedIssue α) :=
  match m with
  | [] => [(key, v)]
  | (k, w) :: rest =>
      if k = key then (k, v) :: rest else (k, w) :: mapSet rest key v

/-- `Map.delete`. -/
def mapDelete (m : List (String × CachedIssue α)) (key : String) :
    List (String × CachedIssue α) :=
  m.filter (fun kv => kv.1 ≠ key)

/-- `IssueCache.get(issueId, allowStale)`: returns the value (or `none`)
together with the cache after its in-place access-tracking mutation. -/
def IssueCache.get (c : IssueCache α) (now : Int) (issueId : String)
    (allowStale : Bool) : Option α × IssueCache α :=
  match c.lookup issueId with
  | none => (none, c)
  | some cached =>
      let age := now - cached.timestamp
      let bumped := { cached with
        accessCount := cached.accessCount + 1
        lastAccessed := now }
      let c' : IssueCache α := ⟨mapSet c.cache issueId bumped⟩
      if age ≤ cached.ttl then
        (some cached.issue, c')
      else if allowStale && decide (age ≤ STALE_TTL) then
        (some cached.issue, c')
      else
        (none, c')

/-- `evictIfNeeded`: when over capacity, stably sort by `lastAccessed`
ascending and delete the first `size - MAX_CACHE_SIZE + 10` entries. -/
def IssueCache.evictIfNeeded (c : IssueCache α) : IssueCache α :=
  if c.cache.length ≤ MAX_CACHE_SIZE then c
  else
    let entries := c.cache.mergeSort
      (fun a b => a.2.lastAccessed ≤ b.2.lastAccessed)
    let toRemove := c.cache.length - MAX_CACHE_SIZE + 10
    ⟨(entries.take toRemove).foldl (fun m kv => mapDelete m kv.1) c.cache⟩

/-- `IssueCache.set(issueId, issue)`: TTL escalates to `EXTENDED_TTL` when
the previous entry was accessed more than 5 times; `accessCount` carries
over; then capacity is enforced. -/
def IssueCache.set (c : IssueCache α) (now : Int) (issueId : String)
    (issue : α) : IssueCache α :=
  let existing := c.lookup issueId
  let ttl :=
    match existing with
    | some e => if e.accessCount > 5 then EXTENDED_TTL else DEFAULT_TTL
    | none => DEFAULT_TTL
  let entry : CachedIssue α :=
    { issue := issue
      timestamp := now
      ttl := ttl
      accessCount := (existing.map (·.accessCount)).getD 0
      lastAccessed := now }
  IssueCache.evictIfNeeded ⟨mapSet c.cache issueId entry⟩

/-- `IssueCache.invalidate(issueId)`. -/
def IssueCache.invalidate (c : IssueCache α) (issueId : String) :
    IssueCache α :=
  ⟨mapDelete c.cache issueId⟩

/-- `needsRefresh(issueId)`. -/
def IssueCache.needsRefresh (c : IssueCache α) (now : Int)
    (issueId : String) : Bool :=
  match c.lookup issueId with
  | none => true
  | some cached => decide (now - cached.timestamp > cached.ttl)

/-!
`RequestQueue.ts`. A queued request's executor, `resolve` and `reject`
are externalised: execution outcomes come from an oracle
`outcomes : QueuedRequest → ExecOutcome`, and settling a Future is
recorded as an `ExecResult` paired with the request. The synchronous
`while` loop of `processQueue` is modelled with explicit fuel; the
JavaScript loop corresponds to unlimited fuel, so a result of
`outOfFuel` for every fuel value is a synchronous busy-loop.
-/

def MAX_RETRIES : Nat := 3

def BASE_RETRY_DELAY : Nat := 1000

/-- A `QueuedRequest` without its closures. -/
structure QueuedRequest where
  id : Nat
  priority : RequestPriority
  timestamp : Int
  retryCount : Nat
deriving DecidableEq, Repr

/-- A JavaScript `Error` as inspected by `executeRequest`
(`error.message?.includes('rate limit')`). -/
structure JsError where
  message : Option String
deriving DecidableEq, Repr

/-- `string.includes(sub)`. -/
def strIncludes (s sub : String) : Bool :=
  decide (List.IsInfix sub.data s.data)

/-- `error.message?.includes('rate limit')`: falsy when `message` is
absent. -/
def JsError.isRateLimit (e : JsError) : Bool :=
  match e.message with
  | none => false
  | some m => strIncludes m "rate limit"

/-- Outcome of running one executor attempt. -/
inductive ExecOutcome (ρ : Type) where
  | success : ρ → ExecOutcome ρ
  | failure : JsError → ExecOutcome ρ
deriving DecidableEq, Repr

/-- What `executeRequest` does to the call's Future: resolve it, reject
it, or leave it pending and schedule a re-enqueue after a delay. -/
inductive ExecResult (ρ : Type) where
  | resolved : ρ → ExecResult ρ
  | rejected : JsError → ExecResult ρ
  | requeued : Nat → QueuedRequest → ExecResult ρ
deriving DecidableEq, Repr

/-- `executeRequest`: success resolves; a failure whose message contains
`'rate limit'` with retry budget left is re-enqueued after
`BASE_RETRY_DELAY * 2 ^ retryCount` with `retryCount` incremented;
any other failure rejects. -/
def executeRequest (req : QueuedRequest) (outcome : ExecOutcome ρ) :
    ExecResult ρ :=
  match outcome with
  | .success r => .resolved r
  | .failure e =>
      if e.isRateLimit && decide (req.retryCount < MAX_RETRIES) then
        .requeued (BASE_RETRY_DELAY * 2 ^ req.retryCount)
          { req with retryCount := req.retryCount + 1 }
      else
        .rejected e

/-- `insertByPriority`: insert before the first strictly-lower-priority
entry, else append (stable FIFO within a tier). -/
def priorityOrder : RequestPriority → Nat
  | .critical => 0
  | .normal => 1
  | .low => 2

def insertByPriority (queue : List QueuedRequest) (req : QueuedRequest) :
    List QueuedRequest :=
  match queue with
  | [] => [req]
  | q :: rest =>
      if priorityOrder q.priority > priorityOrder req.priority then
        req :: q :: rest
      else
        q :: insertByPriority rest req

/-- The mode-dependent `maxBatchSize` of `processQueue`. -/
def maxBatchSizeFor : OperationMode → Nat
  | .normal => 5
  | .conservative => 2
  | .emergency => 1

/-- Result of one synchronous `processQueue` pass. -/
inductive PassResult (ρ : Type) where
  | outOfFuel : PassResult ρ
  | done : List QueuedRequest → List (QueuedRequest × ExecResult ρ) →
      PassResult ρ
deriving DecidableEq, Repr

/-- The `while` loop of `processQueue`, with fuel. A denied low-priority
head is moved to the tail and the loop continues; a denied
normal/critical head stops the pass; an admitted head is dequeued,
executed and counted. `done queue settled` returns the remaining queue
and the settlements performed, in order. -/
def processLoop (tracker : RateLimitTracker)
    (outcomes : QueuedRequest → ExecOutcome ρ) (maxBatchSize : Nat) :
    Nat → List QueuedRequest → Nat →
    List (QueuedRequest × ExecResult ρ) → PassResult ρ
  | 0, _, _, _ => .outOfFuel
  | _ + 1, [], _, acc => .done [] acc.reverse
  | fuel + 1, req :: rest, processedCount, acc =>
      if processedCount ≥ maxBatchSize then
        .done (req :: rest) acc.reverse
      else if !tracker.shouldAllowRequest req.priority then
        if req.priority = .low then
          processLoop tracker outcomes maxBatchSize fuel
            (rest ++ [req]) processedCount acc
        else
          .done (req :: rest) acc.reverse
      else
        processLoop tracker outcomes maxBatchSize fuel rest
          (processedCount + 1) ((req, executeRequest req (outcomes req)) :: acc)

/-- One `processQueue` pass on a nonempty queue: the loop entry point with
`processedCount = 0` and the mode-dependent batch size. -/
def processQueue (tracker : RateLimitTracker)
    (outcomes : QueuedRequest → ExecOutcome ρ) (fuel : Nat)
    (queue : List QueuedRequest) : PassResult ρ :=
  if queue.isEmpty then .done queue []
  else
    processLoop tracker outcomes (maxBatchSizeFor tracker.getOperationMode)
      fuel queue 0 []

/-!
`LinearClientWrapper.ts`: activity classification, batching and the
flush (`processBatchedActivities`). An entry's `resolve`/`reject`
callbacks are modelled positionally: `flushBatch` returns per-entry
settlements (a JavaScript Promise settles once, so a `reject` reaching an
already-resolved callback is a no-op, which the model reflects by giving
each callback its first settlement). Remote results are supplied by
oracles: `combinedRes` for the single combined-thought call and
`otherRes i` for the `i`-th individually-sent entry.
-/

/-- The part of a `createAgentActivity` input the wrapper inspects:
`input.agentSessionId`, `input.content?.type`, `input.content.body`. -/
structure ActivityInput where
  agentSessionId : String
  contentType : Option String
  contentBody : String
deriving DecidableEq, Repr

/-- The `createAgentActivity` branch of `determinePriority`:
`'response'`/`'error'` content is `normal`, anything else `low`. -/
def determinePriorityActivity (input : ActivityInput) : RequestPriority :=
  if input.contentType = some "response" || input.contentType = some "error" then
    .normal
  else
    .low

/-- `shouldBatchActivity(input, operationMode)`, test order as in the
source: emergency first, then conservative thoughts, then the
response/error exclusion, then thoughts in any remaining mode. -/
def shouldBatchActivity (input : ActivityInput) (mode : OperationMode) :
    Bool :=
  if mode = .emergency then
    true
  else if mode = .conservative && input.contentType = some "thought" then
    true
  else if input.contentType = some "response" || input.contentType = some "error" then
    false
  else if input.contentType = some "thought" then
    true
  else
    false

/-- Where `createAgentActivity` routes an input: into the session's
`ActivityBatch`, or immediately through `executeWithTracking` at the
priority `determinePriority` assigns. -/
inductive ActivityRoute where
  | batched : ActivityRoute
  | immediate : RequestPriority → ActivityRoute
deriving DecidableEq, Repr

/-- The routing decision of `createAgentActivity`. -/
def createAgentActivityRoute (input : ActivityInput) (mode : OperationMode) :
    ActivityRoute :=
  if shouldBatchActivity input mode then .batched
  else .immediate (determinePriorityActivity input)

/-- Result of one remote call. -/
inductive CallResult (ρ : Type) where
  | ok : ρ → CallResult ρ
  | err : JsError → CallResult ρ
deriving DecidableEq, Repr

/-- Final state of one entry's Promise. -/
inductive Settlement (ρ : Type) where
  | resolved : ρ → Settlement ρ
  | rejected : JsError → Settlement ρ
deriving DecidableEq, Repr

/-- An outbound call made by the flush. -/
inductive OutboundCall where
  | combinedThought : String → String → OutboundCall
  | individual : ActivityInput → OutboundCall
deriving DecidableEq, Repr

/-- Whether an entry goes into the `thoughts` list of the flush. -/
def isThought (a : ActivityInput) : Bool :=
  a.contentType = some "thought"

/-- The combined body: the single thought verbatim, otherwise the
thoughts numbered from 1 and joined with newlines. -/
def combineThoughts : List String → String
  | [t] => t
  | ts =>
      String.intercalate "\n"
        (ts.enum.map (fun p => toString (p.1 + 1) ++ ". " ++ p.2))

/-- Settlements of the individually-sent entries: each successful send
resolves its own callback and the loop continues; the first failing send
aborts the loop and the `catch` rejects it and every remaining entry with
that error. -/
def settleOthers (otherRes : Nat → CallResult ρ) :
    Nat → List ActivityInput → List (Settlement ρ)
  | _, [] => []
  | i, a :: rest =>
      match otherRes i with
      | .ok r => .resolved r :: settleOthers otherRes (i + 1) rest
      | .err e => (a :: rest).map (fun _ => .rejected e)

/-- The individual sends actually attempted: all of them when none fails,
otherwise everything up to and including the first failure. -/
def attemptedCalls (otherRes : Nat → CallResult ρ) :
    Nat → List ActivityInput → List OutboundCall
  | _, [] => []
  | i, a :: rest =>
      match otherRes i with
      | .ok _ => .individual a :: attemptedCalls otherRes (i + 1) rest
      | .err _ => [.individual a]

/-- Result of `processBatchedActivities` for one session: the outbound
calls made, the settlements of the thought entries (in order) and of the
non-thought entries (in order). -/
structure FlushResult (ρ : Type) where
  calls : List OutboundCall
  thoughtSettlements : List (Settlement ρ)
  otherSettlements : List (Settlement ρ)
deriving DecidableEq, Repr

/-- `processBatchedActivities(sessionId)` on the accumulated `items`:
partition into thoughts and others; when there are thoughts, send one
combined call first — its failure rejects every callback of the flush
and no individual send happens; on its success the thought callbacks
resolve with its result and the others are sent individually in order. -/
def flushBatch (sessionId : String) (items : List ActivityInput)
    (combinedRes : CallResult ρ) (otherRes : Nat → CallResult ρ) :
    FlushResult ρ :=
  if items.isEmpty then
    { calls := [], thoughtSettlements := [], otherSettlements := [] }
  else
    let thoughts := (items.filter isThought).map (·.contentBody)
    let others := items.filter (fun a => !isThought a)
    if thoughts.isEmpty then
      { calls := attemptedCalls otherRes 0 others
        thoughtSettlements := []
        otherSettlements := settleOthers otherRes 0 others }
    else
      match combinedRes with
      | .err e =>
          { calls := [.combinedThought sessionId (combineThoughts thoughts)]
            thoughtSettlements := thoughts.map (fun _ => .rejected e)
            otherSettlements := others.map (fun _ => .rejected e) }
      | .ok r =>
          { calls := .combinedThought sessionId (combineThoughts thoughts) ::
              attemptedCalls otherRes 0 others
            thoughtSettlements := thoughts.map (fun _ => .resolved r)
            otherSettlements := settleOthers otherRes 0 others }

/-- The eventual fate of a queued call across scheduled passes: the
re-enqueue of `executeRequest` hands the incremented request to a later
pass, whose executor outcome is the next list element. `delays` collects
the backoff delays in order; the call is `pending` while re-enqueued
outcomes remain unconsumed. -/
inductive FinalSettle (ρ : Type) where
  | resolved : ρ → List Nat → FinalSettle ρ
  | rejected : JsError → List Nat → FinalSettle ρ
  | pending : FinalSettle ρ
deriving DecidableEq, Repr

/-- Iterate `executeRequest` over successive attempt outcomes, threading
the re-enqueued request and accumulating backoff delays. -/
def settleAttempts (req : QueuedRequest) (outcomes : List (ExecOutcome ρ))
    (delays : List Nat) : FinalSettle ρ :=
  match outcomes with
  | [] => .pending
  | o :: os =>
      match executeRequest req o with
      | .resolved r => .resolved r delays.reverse
      | .rejected e => .rejected e delays.reverse
      | .requeued d req' => settleAttempts req' os (d :: delays)

/-!
Theorems. Helper lemmas first, then one theorem per claim with its
counterexamples and witnesses.
-/

/-- C3 counterexample: a present header value that does not parse as a
number does not leave the prior value (1200) untouched — the field is
set to `NaN`. -/
theorem updateFromHeaders_malformed_counterexample :
    ((RateLimitTracker.initial 0).updateFromHeaders 0
      [("x-ratelimit-requests-remaining", .str "abc")]).requestsRemaining
      = .nan ∧
    (RateLimitTracker.initial 0).requestsRemaining = .int 1200 :=
  ⟨rfl, rfl⟩

/-- C3 (amended): `updateFromHeaders` is total and acts field by field:
a field whose header is absent keeps its prior value while the others
are still applied; a field whose header is present is assigned
`parseInt` of the value — which is `NaN`, not the prior value, when the
value does not parse as a number. -/
theorem updateFromHeaders_field_by_field (t : RateLimitTracker) (now : Int)
    (hs : Headers) :
    (t.updateFromHeaders now hs).requestsRemaining =
      (match getHeaderValue hs "x-ratelimit-requests-remaining" with
       | some v => parseIntJs v
       | none => t.requestsRemaining) ∧
    (t.updateFromHeaders now hs).requestsLimit =
      (match getHeaderValue hs "x-ratelimit-requests-limit" with
       | some v => parseIntJs v
       | none => t.requestsLimit) ∧
    (t.updateFromHeaders now hs).resetTimestamp =
      (match getHeaderValue hs "x-ratelimit-requests-reset" with
       | some v => (parseIntJs v).mulInt 1000
       | none => t.resetTimestamp) ∧
    (t.updateFromHeaders now hs).complexityRemaining =
      (match getHeaderValue hs "x-ratelimit-complexity-remaining" with
       | some v => parseIntJs v
       | none => t.complexityRemaining) ∧
    (t.updateFromHeaders now hs).complexityLimit =
      (match getHeaderValue hs "x-ratelimit-complexity-limit" with
       | some v => parseIntJs v
       | none => t.complexityLimit) := by
  unfold RateLimitTracker.updateFromHeaders RateLimitTracker.trackRequest
  cases h1 : getHeaderValue hs "x-ratelimit-requests-remaining" <;>
  cases h2 : getHeaderValue hs "x-ratelimit-requests-limit" <;>
  cases h3 : getHeaderValue hs "x-ratelimit-requests-reset" <;>
  cases h4 : getHeaderValue hs "x-ratelimit-complexity-remaining" <;>
  cases h5 : getHeaderValue hs "x-ratelimit-complexity-limit" <;>
  simp [h1, h2, h3, h4, h5]

/-- C4 counterexample: the default state satisfies the invariant, but one
`updateFromHeaders` whose parsed remaining (2000) exceeds the prior limit
(1200) breaks `0 <= remaining <= limit`. -/
theorem quotaInvariant_counterexample :
    quotaInvariant (RateLimitTracker.initial 0) = true ∧
    quotaInvariant ((RateLimitTracker.initial 0).updateFromHeaders 0
      [("x-ratelimit-requests-remaining", .str "2000")]) = false :=
  ⟨rfl, rfl⟩

/-- C4 (amended): the constructor state satisfies `0 <= remaining <=
limit` and `consumeRequest` preserves it; `updateFromHeaders` assigns
parsed header values unclamped and so does not preserve it. -/
theorem quotaInvariant_initial_and_consume (t : RateLimitTracker)
    (now m : Int) (h : quotaInvariant t = true) :
    quotaInvariant (RateLimitTracker.initial m) = true ∧
    quotaInvariant (t.consumeRequest now) = true := by
  refine ⟨rfl, ?_⟩
  unfold RateLimitTracker.consumeRequest RateLimitTracker.trackRequest
  unfold quotaInvariant at h ⊢
  rcases hr : t.requestsRemaining with _ | r <;>
    rcases hl : t.requestsLimit with _ | l <;>
      simp [hr, hl, JsNum.subInt, JsNum.max0] at h ⊢
  omega

/-- C4 witness: the amended theorem applied to the default state. -/
theorem quotaInvariant_initial_and_consume_witness :
    quotaInvariant (RateLimitTracker.initial 7) = true ∧
    quotaInvariant ((RateLimitTracker.initial 0).consumeRequest 5) = true :=
  quotaInvariant_initial_and_consume (RateLimitTracker.initial 0) 5 7 rfl

/-- C9 counterexample: after a malformed remaining header the remaining
field is `NaN`; `getOperationMode` reports `emergency`, yet
`shouldAllowRequest` falls through every comparison and admits `low` and
`normal`, contradicting "admits only critical in emergency mode". -/
theorem mode_nan_counterexample :
    ((RateLimitTracker.initial 0).updateFromHeaders 0
      [("x-ratelimit-requests-remaining", .str "oops")]).getOperationMode
      = .emergency ∧
    ((RateLimitTracker.initial 0).updateFromHeaders 0
      [("x-ratelimit-requests-remaining", .str "oops")]).shouldAllowRequest
      .low = true ∧
    ((RateLimitTracker.initial 0).updateFromHeaders 0
      [("x-ratelimit-requests-remaining", .str "oops")]).shouldAllowRequest
      .normal = true :=
  ⟨rfl, rfl, rfl⟩

/-- C9 (amended): for every state whose remaining field is an integer
(not the `NaN` reachable through malformed headers), the mode is normal
when `remaining > 300`, conservative when `100 < remaining <= 300`, and
emergency otherwise; admission admits everything in normal mode, rejects
exactly `low` in conservative mode, admits only `critical` in emergency
mode; the batch window is 500, 2000 and 5000 ms respectively. -/
theorem mode_thresholds_int (t : RateLimitTracker) (r : Int)
    (h : t.requestsRemaining = .int r) :
    (300 < r → t.getOperationMode = .normal ∧
      t.getRecommendedBatchWindow = 500 ∧
      ∀ p, t.shouldAllowRequest p = true) ∧
    (100 < r → r ≤ 300 → t.getOperationMode = .conservative ∧
      t.getRecommendedBatchWindow = 2000 ∧
      t.shouldAllowRequest .critical = true ∧
      t.shouldAllowRequest .normal = true ∧
      t.shouldAllowRequest .low = false) ∧
    (r ≤ 100 → t.getOperationMode = .emergency ∧
      t.getRecommendedBatchWindow = 5000 ∧
      t.shouldAllowRequest .critical = true ∧
      t.shouldAllowRequest .normal = false ∧
      t.shouldAllowRequest .low = false) := by
  unfold RateLimitTracker.getOperationMode
    RateLimitTracker.getRecommendedBatchWindow
    RateLimitTracker.shouldAllowRequest
    CONSERVATIVE_THRESHOLD EMERGENCY_THRESHOLD
  rw [h]
  simp only [JsNum.gtInt, JsNum.leInt]
  refine ⟨fun h1 => ?_, fun h1 h2 => ?_, fun h1 => ?_⟩ <;>
    split_ifs <;> simp_all <;> omega

/-- C9 witness: the amended theorem applied at `remaining = 200`
(conservative mode). -/
theorem mode_thresholds_int_witness :
    ({ RateLimitTracker.initial 0 with
        requestsRemaining := .int 200 } : RateLimitTracker).getOperationMode
      = .conservative ∧
    ({ RateLimitTracker.initial 0 with
        requestsRemaining := .int 200 } : RateLimitTracker).shouldAllowRequest
      .low = false := by
  have h := (mode_thresholds_int
    { RateLimitTracker.initial 0 with requestsRemaining := .int 200 }
    200 rfl).2.1 (by omega) (by omega)
  exact ⟨h.1, h.2.2.2.2⟩


/-- Looking up the written key after `mapSet` yields the new record. -/
theorem lookup_mapSet_self (m : List (String × CachedIssue α)) (k : String)
    (v : CachedIssue α) : List.lookup k (mapSet m k v) = some v := by
  induction m with
  | nil => simp [mapSet, List.lookup]
  | cons kv rest ih =>
      obtain ⟨k', w⟩ := kv
      by_cases h : k' = k
      · subst h
        simp [mapSet, List.lookup]
      · have hb : (k == k') = false := by
          simp only [beq_eq_false_iff_ne, ne_eq]
          exact fun hh => h hh.symm
        simp [mapSet, List.lookup, h, hb, ih]

/-- Looking up a different key after `mapSet` is unchanged. -/
theorem lookup_mapSet_ne (m : List (String × CachedIssue α)) (k k' : String)
    (v : CachedIssue α) (hne : k' ≠ k) :
    List.lookup k' (mapSet m k v) = List.lookup k' m := by
  have hb : (k' == k) = false := by
    simp only [beq_eq_false_iff_ne, ne_eq]
    exact hne
  induction m with
  | nil => simp [mapSet, List.lookup, hb]
  | cons kv rest ih =>
      obtain ⟨k'', w⟩ := kv
      by_cases h : k'' = k
      · subst h
        simp [mapSet, List.lookup, hb]
      · simp [mapSet, List.lookup, h, ih]

/-- Closed form of `get` on a key that has an entry: the returned value
is the freshness cascade and the cache is always the access-bumped one. -/
theorem IssueCache.get_eq (c : IssueCache α) (now : Int) (k : String)
    (b : Bool) (e : CachedIssue α) (hk : c.lookup k = some e) :
    c.get now k b =
      (if now - e.timestamp ≤ e.ttl then some e.issue
       else if b && decide (now - e.timestamp ≤ STALE_TTL) then some e.issue
       else none,
       ⟨mapSet c.cache k
         { e with accessCount := e.accessCount + 1, lastAccessed := now }⟩) := by
  unfold IssueCache.get
  rw [hk]
  dsimp only
  split_ifs <;> rfl

/-- C5 counterexample: an entry aged past the 1h stale limit (stored at
`t = 0`, read at `t = 3600001` with `allowStale = true`) makes `get`
return absent, but the entry is not evicted — it is still in the cache,
with its access tracking even bumped. -/
theorem cacheGet_expired_not_evicted_counterexample :
    ((((IssueCache.empty Nat).set 0 "I1" 42).get 3600001 "I1" true)).1
      = none ∧
    ((((IssueCache.empty Nat).set 0 "I1" 42).get 3600001 "I1" true)).2.lookup
      "I1" = some ⟨42, 0, 600000, 1, 3600001⟩ :=
  ⟨rfl, rfl⟩

/-- C5 (amended): for a cached key with `age = now - storedAt`, `get`
returns the stored value when `age <= ttl`; when `ttl < age <=
staleLimit` it returns the value if and only if `allowStale` is true;
when `age > staleLimit` it returns absent — but in no case is the entry
evicted: it stays in the cache (with its access tracking updated), also
on a fresh-miss with `allowStale` false. -/
theorem cacheGet_freshness (c : IssueCache α) (now : Int) (k : String)
    (allowStale : Bool) (e : CachedIssue α) (hk : c.lookup k = some e) :
    ((c.get now k allowStale).2).lookup k =
      some { e with accessCount := e.accessCount + 1, lastAccessed := now } ∧
    (now - e.timestamp ≤ e.ttl →
      (c.get now k allowStale).1 = some e.issue) ∧
    (e.ttl < now - e.timestamp → now - e.timestamp ≤ STALE_TTL →
      (c.get now k allowStale).1 =
        if allowStale then some e.issue else none) ∧
    (e.ttl < now - e.timestamp → STALE_TTL < now - e.timestamp →
      (c.get now k allowStale).1 = none) := by
  rw [IssueCache.get_eq c now k allowStale e hk]
  refine ⟨?_, ?_, ?_, ?_⟩
  · simpa [IssueCache.lookup] using lookup_mapSet_self c.cache k
      { e with accessCount := e.accessCount + 1, lastAccessed := now }
  · intro h1
    simp [h1]
  · intro h1 h2
    rw [if_neg (by omega)]
    have hd : decide (now - e.timestamp ≤ STALE_TTL) = true := decide_eq_true h2
    cases allowStale
    · simp [hd]
    · simp [hd]
      omega
  · intro h1 h2
    rw [if_neg (by omega)]
    have hd : decide (now - e.timestamp ≤ STALE_TTL) = false := by
      simp only [decide_eq_false_iff_not]
      omega
    simp [hd]
    omega

/-- C5 witness: the amended theorem at a concrete entry, read in the
stale window with `allowStale = true`. -/
theorem cacheGet_freshness_witness :
    ((((IssueCache.empty Nat).set 0 "I1" 42).get 660000 "I1" true)).1
      = some 42 ∧
    ((((IssueCache.empty Nat).set 0 "I1" 42).get 660000 "I1" true)).2.lookup
      "I1" = some ⟨42, 0, 600000, 1, 660000⟩ := by
  have h := cacheGet_freshness ((IssueCache.empty Nat).set 0 "I1" 42)
    660000 "I1" true ⟨42, 0, 600000, 0, 0⟩ rfl
  exact ⟨(h.2.2.1 (by decide) (by decide)).trans rfl, h.1⟩

/-- C10: every `get` on a key that has an entry — also when it returns
absent because the entry is expired or stale data is not allowed —
increments that entry's `accessCount`, sets its `lastAccessed` to the
current time, and leaves every other key's entry unchanged. -/
theorem cacheGet_always_bumps_access (c : IssueCache α) (now : Int)
    (k : String) (allowStale : Bool) (e : CachedIssue α)
    (hk : c.lookup k = some e) :
    ((c.get now k allowStale).2).lookup k =
      some { e with accessCount := e.accessCount + 1, lastAccessed := now } ∧
    (∀ k' : String, k' ≠ k →
      ((c.get now k allowStale).2).lookup k' = c.lookup k') := by
  rw [IssueCache.get_eq c now k allowStale e hk]
  constructor
  · simpa [IssueCache.lookup] using lookup_mapSet_self c.cache k
      { e with accessCount := e.accessCount + 1, lastAccessed := now }
  · intro k' hne
    simpa [IssueCache.lookup] using lookup_mapSet_ne c.cache k k'
      { e with accessCount := e.accessCount + 1, lastAccessed := now } hne

/-- C10 witness: the theorem at a concrete expired entry read with
`allowStale = false`: the read returns absent yet bumps the tracking. -/
theorem cacheGet_always_bumps_access_witness :
    ((((IssueCache.empty Nat).set 0 "I1" 42).get 660000 "I1" false)).2.lookup
      "I1" = some ⟨42, 0, 600000, 1, 660000⟩ ∧
    ((((IssueCache.empty Nat).set 0 "I1" 42).get 660000 "I1" false)).1
      = none := by
  have h := cacheGet_always_bumps_access ((IssueCache.empty Nat).set 0 "I1" 42)
    660000 "I1" false ⟨42, 0, 600000, 0, 0⟩ rfl
  exact ⟨h.1, rfl⟩

/-- Every operating mode's batch size is at least one. -/
theorem maxBatchSizeFor_pos (m : OperationMode) : 1 ≤ maxBatchSizeFor m := by
  cases m <;> simp [maxBatchSizeFor]

/-- The loop invariant behind the busy-loop: an all-low nonempty queue
whose priority is denied never leaves the loop, for any fuel. -/
theorem processLoop_allLow_denied (tracker : RateLimitTracker)
    (outcomes : QueuedRequest → ExecOutcome ρ) (maxBatchSize : Nat)
    (hpos : 1 ≤ maxBatchSize)
    (hdeny : tracker.shouldAllowRequest .low = false) :
    ∀ (fuel : Nat) (queue : List QueuedRequest)
      (acc : List (QueuedRequest × ExecResult ρ)),
      queue ≠ [] → (∀ r ∈ queue, r.priority = .low) →
      processLoop tracker outcomes maxBatchSize fuel queue 0 acc =
        .outOfFuel := by
  intro fuel
  induction fuel with
  | zero => intro queue acc _ _; rfl
  | succ n ih =>
      intro queue acc hne hlow
      match queue with
      | [] => exact absurd rfl hne
      | req :: rest =>
          have hreq : req.priority = .low := hlow req (by simp)
          have hd : tracker.shouldAllowRequest req.priority = false := by
            rw [hreq]; exact hdeny
          unfold processLoop
          rw [if_neg (by omega), hd]
          simp only [Bool.not_false, if_pos hreq, hreq, if_true]
          exact ih (rest ++ [req]) acc (by simp)
            (by intro r hr
                rcases List.mem_append.mp hr with h | h
                · exact hlow r (List.mem_cons_of_mem _ h)
                · simp at h; rw [h]; exact hreq)

/-- C1: an all-low-priority backlog whose priority is denied (any
conservative- or emergency-mode tracker state) makes a single
`processQueue` pass busy-loop synchronously: the `while` loop re-queues
the denied low head and continues instead of stopping the pass, so no
amount of fuel finishes the pass. -/
theorem processQueue_allLow_denied_busyLoops (tracker : RateLimitTracker)
    (outcomes : QueuedRequest → ExecOutcome ρ) (queue : List QueuedRequest)
    (hne : queue ≠ []) (hlow : ∀ r ∈ queue, r.priority = .low)
    (hdeny : tracker.shouldAllowRequest .low = false) (fuel : Nat) :
    processQueue tracker outcomes fuel queue = .outOfFuel := by
  unfold processQueue
  rw [if_neg (by simpa using hne)]
  exact processLoop_allLow_denied tracker outcomes _
    (maxBatchSizeFor_pos _) hdeny fuel queue [] hne hlow

/-- C1 witness: the failing input itself — the tracker after a
`remaining = 250` header (conservative mode) and one queued low-priority
request; the pass runs out of any concrete fuel (here 100) instead of
finishing. -/
theorem processQueue_allLow_denied_busyLoops_witness :
    processQueue
      ((RateLimitTracker.initial 0).updateFromHeaders 0
        [("x-ratelimit-requests-remaining", .str "250")])
      (fun _ => ExecOutcome.success 0) 100 [⟨1, .low, 0, 0⟩] =
      .outOfFuel ∧
    ((RateLimitTracker.initial 0).updateFromHeaders 0
      [("x-ratelimit-requests-remaining", .str "250")]).shouldAllowRequest
      .low = false :=
  ⟨processQueue_allLow_denied_busyLoops _ _ _ (by decide)
    (by decide) (by decide) 100, by decide⟩

/-- C8: `executeRequest` failure handling — a quota-rejection error
(message containing `'rate limit'`) with retry budget left re-enqueues
after `BASE_RETRY_DELAY * 2 ^ retryCount` with `retryCount` incremented
and leaves the Future pending; any other failure, or an exhausted
budget, rejects with that error; and a call failing twice with a
quota-rejection error then succeeding resolves successfully with backoff
delays 1000 and 2000. -/
theorem executeRequest_retry_policy {ρ : Type} (req : QueuedRequest) :
    (∀ e : JsError, e.isRateLimit = true → req.retryCount < MAX_RETRIES →
      executeRequest (ρ := ρ) req (.failure e) =
        .requeued (BASE_RETRY_DELAY * 2 ^ req.retryCount)
          { req with retryCount := req.retryCount + 1 }) ∧
    (∀ e : JsError, e.isRateLimit = false ∨ MAX_RETRIES ≤ req.retryCount →
      executeRequest (ρ := ρ) req (.failure e) = .rejected e) ∧
    (∀ v : ρ, executeRequest req (.success v) = .resolved v) ∧
    (∀ (e : JsError) (v : ρ), req.retryCount = 0 → e.isRateLimit = true →
      settleAttempts req [.failure e, .failure e, .success v] [] =
        .resolved v [BASE_RETRY_DELAY * 2 ^ 0, BASE_RETRY_DELAY * 2 ^ 1]) := by
  refine ⟨?_, ?_, ?_, ?_⟩
  · intro e hrl hlt
    simp [executeRequest, hrl, hlt]
  · intro e h
    rcases h with h | h
    · simp [executeRequest, h]
    · simp [executeRequest, show ¬ req.retryCount < MAX_RETRIES by omega]
  · intro v
    rfl
  · intro e v hrc hrl
    simp [settleAttempts, executeRequest, hrl, hrc, MAX_RETRIES,
      BASE_RETRY_DELAY]

/-- C8 witness: a concrete request with `retryCount = 0` and the error
message `'rate limit exceeded'`: first failure re-enqueued after 1000ms,
a non-quota failure rejected, and the fail-fail-succeed run resolving. -/
theorem executeRequest_retry_policy_witness :
    executeRequest (ρ := Nat) ⟨1, .normal, 0, 0⟩
      (.failure ⟨some "rate limit exceeded"⟩) =
      .requeued 1000 ⟨1, .normal, 0, 1⟩ ∧
    executeRequest (ρ := Nat) ⟨1, .normal, 0, 0⟩
      (.failure ⟨some "not found"⟩) = .rejected ⟨some "not found"⟩ ∧
    settleAttempts (ρ := Nat) ⟨1, .normal, 0, 0⟩
      [.failure ⟨some "rate limit exceeded"⟩,
       .failure ⟨some "rate limit exceeded"⟩, .success 5] [] =
      .resolved 5 [1000, 2000] := by
  have h := executeRequest_retry_policy (ρ := Nat) ⟨1, .normal, 0, 0⟩
  exact ⟨h.1 ⟨some "rate limit exceeded"⟩ (by decide) (by decide),
    h.2.1 ⟨some "not found"⟩ (Or.inl (by decide)),
    h.2.2.2 ⟨some "rate limit exceeded"⟩ 5 rfl (by decide)⟩

/-- C2 counterexample: in emergency mode `shouldBatchActivity` answers
`true` before the response/error exclusion is reached, so a `'response'`
payload is routed into the `ActivityBatch` rather than sent immediately. -/
theorem response_batched_in_emergency_counterexample :
    shouldBatchActivity ⟨"s", some "response", "done"⟩ .emergency = true ∧
    createAgentActivityRoute ⟨"s", some "response", "done"⟩ .emergency
      = .batched :=
  ⟨rfl, rfl⟩

/-- C2 (amended): in `normal` and `conservative` modes a payload whose
content type is `'response'` or `'error'` is never batched — it is
enqueued immediately at `normal` priority; in `emergency` mode every
payload, terminal outcomes included, is batched. -/
theorem terminal_activity_routing (input : ActivityInput)
    (mode : OperationMode)
    (hterm : input.contentType = some "response" ∨
      input.contentType = some "error")
    (hmode : mode ≠ .emergency) :
    createAgentActivityRoute input mode = .immediate .normal ∧
    (∀ i : ActivityInput, createAgentActivityRoute i .emergency = .batched) := by
  constructor
  · unfold createAgentActivityRoute shouldBatchActivity
      determinePriorityActivity
    rcases hterm with h | h <;> cases mode <;> simp_all
  · intro i
    unfold createAgentActivityRoute shouldBatchActivity
    simp

/-- C2 witness: the amended theorem at a `'response'` payload in
conservative mode. -/
theorem terminal_activity_routing_witness :
    createAgentActivityRoute ⟨"s", some "response", "done"⟩ .conservative
      = .immediate .normal ∧
    createAgentActivityRoute ⟨"s", some "error", "oops"⟩ .emergency
      = .batched := by
  have h := terminal_activity_routing ⟨"s", some "response", "done"⟩
    .conservative (Or.inl rfl) (by decide)
  exact ⟨h.1, h.2 ⟨"s", some "error", "oops"⟩⟩

/-- C7: a nonempty batch consisting only of `'thought'` payloads is
flushed as exactly one outbound call carrying the combined (numbered
when more than one) body; every merged caller resolves to that call's
result when it succeeds, and every merged caller is rejected with its
error when it fails; no caller is settled any other way. -/
theorem flush_allThoughts_merge {ρ : Type} (sid : String)
    (items : List ActivityInput) (combinedRes : CallResult ρ)
    (otherRes : Nat → CallResult ρ) (hne : items ≠ [])
    (hall : ∀ a ∈ items, isThought a = true) :
    (flushBatch sid items combinedRes otherRes).calls =
      [.combinedThought sid
        (combineThoughts (items.map (fun a => a.contentBody)))] ∧
    (∀ r, combinedRes = .ok r →
      (flushBatch sid items combinedRes otherRes).thoughtSettlements =
        items.map (fun _ => .resolved r)) ∧
    (∀ e, combinedRes = .err e →
      (flushBatch sid items combinedRes otherRes).thoughtSettlements =
        items.map (fun _ => .rejected e)) ∧
    (flushBatch sid items combinedRes otherRes).otherSettlements = [] := by
  have hf : items.filter isThought = items := List.filter_eq_self.mpr hall
  have hn : items.filter (fun a => !isThought a) = [] := by
    rw [List.filter_eq_nil_iff]
    intro a ha
    simp [hall a ha]
  have hie : items.isEmpty = false := by
    cases items with
    | nil => exact absurd rfl hne
    | cons a rest => rfl
  have hte : ((items.filter isThought).map (fun a => a.contentBody)).isEmpty
      = false := by
    rw [hf]
    cases items with
    | nil => exact absurd rfl hne
    | cons a rest => rfl
  cases combinedRes with
  | ok r =>
      refine ⟨?_, ?_, ?_, ?_⟩ <;>
        simp [flushBatch, hne, hie, hte, hf, hn, attemptedCalls, settleOthers,
          List.map_map, Function.comp_def, List.map_const]
  | err e =>
      refine ⟨?_, ?_, ?_, ?_⟩ <;>
        simp [flushBatch, hne, hie, hte, hf, hn, attemptedCalls, settleOthers,
          List.map_map, Function.comp_def, List.map_const]

/-- C7 witness: three thoughts in one window flush as one call with the
numbered body and all three callers resolve to the same result. -/
theorem flush_allThoughts_merge_witness :
    (flushBatch "s"
      [⟨"s", some "thought", "a"⟩, ⟨"s", some "thought", "b"⟩,
       ⟨"s", some "thought", "c"⟩]
      (.ok 7) (fun _ => (.ok 9 : CallResult Nat))).calls =
      [.combinedThought "s" "1. a\n2. b\n3. c"] ∧
    (flushBatch "s"
      [⟨"s", some "thought", "a"⟩, ⟨"s", some "thought", "b"⟩,
       ⟨"s", some "thought", "c"⟩]
      (.ok 7) (fun _ => (.ok 9 : CallResult Nat))).thoughtSettlements =
      [.resolved 7, .resolved 7, .resolved 7] := by
  have h := flush_allThoughts_merge "s"
    [⟨"s", some "thought", "a"⟩, ⟨"s", some "thought", "b"⟩,
     ⟨"s", some "thought", "c"⟩]
    (.ok 7) (fun _ => (.ok 9 : CallResult Nat)) (by decide)
    (by intro a ha; fin_cases ha <;> rfl)
  exact ⟨h.1, (h.2.1 7 rfl).trans rfl⟩

/-- Every settlement a `processLoop` pass performs is the classification
of that request's own executor outcome: the loop never settles one
request based on another's result. -/
theorem processLoop_settled_sound (tracker : RateLimitTracker)
    (outcomes : QueuedRequest → ExecOutcome ρ) (maxBatchSize : Nat) :
    ∀ (fuel : Nat) (queue : List QueuedRequest) (count : Nat)
      (acc : List (QueuedRequest × ExecResult ρ))
      (q : List QueuedRequest) (settled : List (QueuedRequest × ExecResult ρ)),
      (∀ p ∈ acc, p.2 = executeRequest p.1 (outcomes p.1)) →
      processLoop tracker outcomes maxBatchSize fuel queue count acc =
        .done q settled →
      ∀ p ∈ settled, p.2 = executeRequest p.1 (outcomes p.1) := by
  intro fuel
  induction fuel with
  | zero =>
      intro queue count acc q settled _ hdone
      exact absurd hdone (by simp [processLoop])
  | succ n ih =>
      intro queue count acc q settled hacc hdone
      match queue with
      | [] =>
          unfold processLoop at hdone
          obtain ⟨_, hs⟩ := PassResult.done.inj hdone
          subst hs
          intro p hp
          exact hacc p (List.mem_reverse.mp hp)
      | req :: rest =>
          unfold processLoop at hdone
          by_cases h1 : count ≥ maxBatchSize
          · rw [if_pos h1] at hdone
            obtain ⟨_, hs⟩ := PassResult.done.inj hdone
            subst hs
            intro p hp
            exact hacc p (List.mem_reverse.mp hp)
          · rw [if_neg h1] at hdone
            by_cases h2 : tracker.shouldAllowRequest req.priority
            · rw [h2] at hdone
              simp only [Bool.not_true, Bool.false_eq_true, if_false] at hdone
              refine ih rest (count + 1)
                ((req, executeRequest req (outcomes req)) :: acc) q settled
                ?_ hdone
              intro p hp
              rcases List.mem_cons.mp hp with h | h
              · rw [h]
              · exact hacc p h
            · rw [Bool.not_eq_true] at h2
              rw [h2] at hdone
              simp only [Bool.not_false, if_true] at hdone
              by_cases h3 : req.priority = .low
              · rw [if_pos h3] at hdone
                exact ih (rest ++ [req]) count acc q settled hacc hdone
              · rw [if_neg h3] at hdone
                obtain ⟨_, hs⟩ := PassResult.done.inj hdone
                subst hs
                intro p hp
                exact hacc p (List.mem_reverse.mp hp)

/-- C6 counterexample: one thought and one non-batched-type entry
(`'response'`) accumulated in the same window; the merged thought call
fails, and the non-merged entry — never even sent (only the combined
call appears in `calls`) — is rejected with the merged call's error,
not left unaffected. -/
theorem flush_failure_hits_individual_counterexample :
    (flushBatch "s"
      [⟨"s", some "thought", "a"⟩, ⟨"s", some "response", "r"⟩]
      (.err ⟨some "boom"⟩)
      (fun _ => (.ok 7 : CallResult Nat))).otherSettlements =
      [.rejected ⟨some "boom"⟩] ∧
    (flushBatch "s"
      [⟨"s", some "thought", "a"⟩, ⟨"s", some "response", "r"⟩]
      (.err ⟨some "boom"⟩)
      (fun _ => (.ok 7 : CallResult Nat))).calls =
      [.combinedThought "s" "a"] :=
  ⟨rfl, rfl⟩

/-- C6 (amended): inside the queue, a settled call's outcome depends only
on its own executor result; but within one batch flush the entries share
fate beyond the merged ones: when the merged thought call fails, every
caller of that flush — merged and individually-sent alike — is rejected
with that error. -/
theorem flush_shared_fate {ρ : Type} (sid : String)
    (items : List ActivityInput) (e : JsError) (otherRes : Nat → CallResult ρ)
    (hth : items.filter isThought ≠ []) :
    (flushBatch sid items (.err e) otherRes).thoughtSettlements =
      (items.filter isThought).map (fun _ => .rejected e) ∧
    (flushBatch sid items (.err e) otherRes).otherSettlements =
      (items.filter (fun a => !isThought a)).map (fun _ => .rejected e) ∧
    (∀ (tracker : RateLimitTracker)
       (outcomes : QueuedRequest → ExecOutcome ρ) (fuel : Nat)
       (queue q : List QueuedRequest)
       (settled : List (QueuedRequest × ExecResult ρ)),
       processQueue tracker outcomes fuel queue = .done q settled →
       ∀ p ∈ settled, p.2 = executeRequest p.1 (outcomes p.1)) := by
  have hne : items ≠ [] := by
    intro h
    rw [h] at hth
    exact hth rfl
  have hie : items.isEmpty = false := by
    cases items with
    | nil => exact absurd rfl hne
    | cons a rest => rfl
  have hte : ((items.filter isThought).map (fun a => a.contentBody)).isEmpty
      = false := by
    cases hfe : items.filter isThought with
    | nil => exact absurd hfe hth
    | cons a rest => rfl
  refine ⟨?_, ?_, ?_⟩
  · simp [flushBatch, hne, hie, hte, List.map_map, Function.comp_def]
  · simp [flushBatch, hne, hie, hte]
  · intro tracker outcomes fuel queue q settled hdone p hp
    unfold processQueue at hdone
    by_cases hq : queue.isEmpty
    · rw [if_pos hq] at hdone
      obtain ⟨_, hs⟩ := PassResult.done.inj hdone
      subst hs
      exact absurd hp (List.not_mem_nil p)
    · rw [if_neg hq] at hdone
      exact processLoop_settled_sound tracker outcomes _ fuel queue 0 []
        q settled (by intro x hx; exact absurd hx (List.not_mem_nil x))
        hdone p hp

/-- C6 witness: the amended theorem at the counterexample's input — both
the merged and the individual caller of the failing flush are rejected
with the flush error. -/
theorem flush_shared_fate_witness :
    (flushBatch "s"
      [⟨"s", some "thought", "a"⟩, ⟨"s", some "response", "r"⟩]
      (.err ⟨some "boom"⟩)
      (fun _ => (.ok 7 : CallResult Nat))).thoughtSettlements =
      [.rejected ⟨some "boom"⟩] ∧
    (flushBatch "s"
      [⟨"s", some "thought", "a"⟩, ⟨"s", some "response", "r"⟩]
      (.err ⟨some "boom"⟩)
      (fun _ => (.ok 7 : CallResult Nat))).otherSettlements =
      [.rejected ⟨some "boom"⟩] := by
  have h := flush_shared_fate "s"
    [⟨"s", some "thought", "a"⟩, ⟨"s", some "response", "r"⟩]
    ⟨some "boom"⟩ (fun _ => (.ok 7 : CallResult Nat)) (by decide)
  exact ⟨h.1.trans rfl, h.2.1.trans rfl⟩
